import Mathlib

/-!
Verification of the Gmail-Processing-API repository.

Shallow embedding of the repository's Python sources:

* `src/gmail_client.py` — `extract_email_data`, `_get_plain_text_body`,
  `load_processed_ids`, `save_processed_ids`;
* `src/gmail_service.py` — the `SCOPES` constant;
* `src/main.py` — the orchestrator loop of `main`.

Python strings that may be `None` are modelled as `Option String`
(`none` = Python `None`); Python truthiness of such a value is
`none`/`""` ↦ false.  The base64url+utf-8 decoding pipeline used by
`_get_plain_text_body` is external library code, modelled as an explicit
function argument `decode : String → String`.  Exceptions are modelled
with `Except`, and the effectful Gmail/Sheets calls of the orchestrator
are modelled by an environment that records, per message id, whether
each call succeeds or raises.
-/

namespace GmailProc

/-- Python truthiness of a str-or-None value: `None` and `""` are falsy. -/
def pyTruthy : Option String → Bool
  | none => false
  | some s => s ≠ ""

/-- Python `v or d` for a str-or-None `v` and a string default `d`. -/
def pyOr (v : Option String) (d : String) : String :=
  match v with
  | none => d
  | some s => if s = "" then d else s

/-- One character list is an initial segment of another. -/
def listLeads : List Char → List Char → Bool
  | [], _ => true
  | _ :: _, [] => false
  | c :: cs, d :: ds => c = d && listLeads cs ds

/-- Python `s.startswith(pre)` (structurally recursive model of it). -/
def pyStartsWith (s pre : String) : Bool :=
  listLeads pre.toList s.toList

/-- ASCII lower-casing of one character (`str.lower()` on header names,
which are ASCII). -/
def charLower (c : Char) : Char :=
  if 65 ≤ c.toNat ∧ c.toNat ≤ 90 then Char.ofNat (c.toNat + 32) else c

/-- Python `s.lower()` (structurally recursive model of it). -/
def pyLower (s : String) : String :=
  String.mk (s.toList.map charLower)

/-!
## Message payloads

A Gmail API message payload, as read by the repository: a dict with
`headers` (a list of name/value pairs), `mimeType`, `body.data`
(base64url-encoded, `""` when absent) and `parts`.  The message object
itself is used only through its `payload` field.
-/

mutual
inductive Payload : Type where
  | mk (headers : List (String × String)) (mimeType : String)
       (data : String) (parts : PayloadList) : Payload
  deriving DecidableEq

inductive PayloadList : Type where
  | nil : PayloadList
  | cons (p : Payload) (ps : PayloadList) : PayloadList
  deriving DecidableEq
end

def Payload.headers : Payload → List (String × String)
  | .mk h _ _ _ => h

def Payload.mimeType : Payload → String
  | .mk _ m _ _ => m

def Payload.data : Payload → String
  | .mk _ _ d _ => d

def Payload.parts : Payload → PayloadList
  | .mk _ _ _ ps => ps

/-- A Gmail message as used by the code: only its `payload` field is read
(`message.get('payload', {})`). -/
structure GMessage : Type where
  payload : Payload
  deriving DecidableEq

/-!
## `_get_plain_text_body` (src/gmail_client.py)

Recursive extraction of the plain-text body.  `decode` stands for
`base64.urlsafe_b64decode(data).decode('utf-8', errors='ignore')`.
-/

mutual
/-- Embedding of `_get_plain_text_body(payload)`. -/
def get_plain_text_body (decode : String → String) : Payload → String
  | .mk _ m d ps =>
    if m = "text/plain" then
      -- `data = payload.get('body', \x7b\x7d).get('data', '')`; `if data:` then decode
      if d ≠ "" then decode d else ""
    else if pyStartsWith m "multipart/" then
      firstTruthyBody decode ps
    else
      ""

/-- The `for part in parts` loop: first recursive result that is truthy. -/
def firstTruthyBody (decode : String → String) : PayloadList → String
  | .nil => ""
  | .cons p ps =>
    let body := get_plain_text_body decode p
    if body ≠ "" then body else firstTruthyBody decode ps
end

/-!
## `extract_email_data` (src/gmail_client.py)
-/

/-- Embedding of `re.search(r'<([^>]+)>', value)`, returning group 1 of the
leftmost match: at each `<`, the greedy nonempty run of non-`>` characters
must be followed by `>`; on failure the scan moves one position right. -/
def searchAngle : List Char → Option String
  | [] => none
  | c :: rest =>
    if c = '<' then
      let run := rest.takeWhile (fun ch => ch ≠ '>')
      if run ≠ [] ∧ rest.drop run.length ≠ [] then
        some (String.mk run)
      else
        searchAngle rest
    else
      searchAngle rest

/-- The record built by `extract_email_data`: dict with keys
`sender`, `subject`, `received_at`, `body`, values str-or-None. -/
structure EmailData : Type where
  sender : Option String
  subject : Option String
  received_at : Option String
  body : Option String
  deriving DecidableEq

/-- The header loop of `extract_email_data`: each header may overwrite the
field selected by its lower-cased name. -/
def applyHeader (acc : EmailData) (h : String × String) : EmailData :=
  let name := pyLower h.1
  let value := h.2
  if name = "from" then
    match searchAngle value.toList with
    | some g => { acc with sender := some g }
    | none => { acc with sender := some value }
  else if name = "subject" then
    { acc with subject := some value }
  else if name = "date" then
    { acc with received_at := some value }
  else
    acc

/-- Embedding of `extract_email_data(message)`. -/
def extract_email_data (decode : String → String) (message : GMessage) :
    EmailData :=
  let init : EmailData :=
    { sender := none, subject := none, received_at := none, body := none }
  let withHeaders := message.payload.headers.foldl applyHeader init
  { withHeaders with
      body := some (get_plain_text_body decode message.payload) }

/-- `any(email_data.values())` over the dict's four values. -/
def anyValues (d : EmailData) : Bool :=
  pyTruthy d.sender || pyTruthy d.subject || pyTruthy d.received_at ||
    pyTruthy d.body

/-- The `row` list built in `main` before appending to the sheet. -/
def makeRow (d : EmailData) : List String :=
  [pyOr d.sender "Unknown",
   pyOr d.subject "No Subject",
   pyOr d.received_at "Unknown Date",
   pyOr d.body "No Body"]

/-!
## The ledger file (src/gmail_client.py)

`load_processed_ids` / `save_processed_ids` read and write the JSON file
`processed_emails.json`.  The backing document is modelled as: absent,
present but not decodable as JSON, or a decoded JSON value.  JSON
numbers are modelled as integers (no claim depends on number semantics).
Python `set()` elements must be hashable; the hashable values arising
from decoded JSON are modelled by `PyHash`.  (Python's `True == 1`
equality collapse is not modelled; no ledger identifier is a boolean.)
-/

inductive Json : Type where
  | null : Json
  | bool (b : Bool) : Json
  | num (n : Int) : Json
  | str (s : String) : Json
  | arr (xs : List Json) : Json
  | obj (kvs : List (String × Json)) : Json

/-- State of the `processed_emails.json` file. -/
inductive Doc : Type where
  | absent : Doc
  | invalid : Doc
  | valid (j : Json) : Doc

/-- Uncaught Python exceptions that `load_processed_ids` can raise. -/
inductive PyErr : Type where
  | attributeError : PyErr
  | typeError : PyErr
  deriving DecidableEq

instance {ε α : Type} [DecidableEq ε] [DecidableEq α] :
    DecidableEq (Except ε α) := fun a b =>
  match a, b with
  | .error e, .error f =>
    if h : e = f then .isTrue (by rw [h])
    else .isFalse (fun hc => h (by injection hc))
  | .error _, .ok _ => .isFalse (fun hc => Except.noConfusion hc)
  | .ok _, .error _ => .isFalse (fun hc => Except.noConfusion hc)
  | .ok x, .ok y =>
    if h : x = y then .isTrue (by rw [h])
    else .isFalse (fun hc => h (by injection hc))

/-- Hashable Python values produced by decoding JSON. -/
inductive PyHash : Type where
  | str (s : String) : PyHash
  | int (n : Int) : PyHash
  | bool (b : Bool) : PyHash
  | none_ : PyHash
  deriving DecidableEq

/-- Serialisation of a hashable value back to JSON (`json.dump`). -/
def PyHash.toJson : PyHash → Json
  | .str s => .str s
  | .int n => .num n
  | .bool b => .bool b
  | .none_ => .null

/-- A decoded JSON value, if it is hashable (`set` raises otherwise). -/
def toHashable : Json → Option PyHash
  | .null => some .none_
  | .bool b => some (.bool b)
  | .num n => some (.int n)
  | .str s => some (.str s)
  | .arr _ => none
  | .obj _ => none

/-- Python `dict.get(key, default)`; JSON objects decode with the last
binding of a duplicated key winning. -/
def dictGet (kvs : List (String × Json)) (key : String) (dflt : Json) :
    Json :=
  match kvs.reverse.find? (fun kv => kv.1 = key) with
  | some kv => kv.2
  | none => dflt

/-- The elements of a decoded JSON list, if all are hashable. -/
def hashList : List Json → Option (List PyHash)
  | [] => some []
  | x :: xs =>
    match toHashable x, hashList xs with
    | some h, some hs => some (h :: hs)
    | _, _ => none

/-- Python `set(x)` on a decoded JSON value: iterates a list (raising
`TypeError` on an unhashable element), the characters of a string, or the
keys of a dict; non-iterables raise `TypeError`. -/
def pySet : Json → Except PyErr (Finset PyHash)
  | .str s => .ok ((s.toList.map (fun c => PyHash.str c.toString)).toFinset)
  | .arr xs =>
    match hashList xs with
    | some hs => .ok hs.toFinset
    | none => .error .typeError
  | .obj kvs => .ok ((kvs.map (fun kv => PyHash.str kv.1)).toFinset)
  | _ => .error .typeError

/-- Embedding of `load_processed_ids()`.  An absent file or a
`json.JSONDecodeError` yields the empty set (the `except` clause catches
`JSONDecodeError` and `KeyError` only); on a decoded non-dict value,
`data.get` raises an uncaught `AttributeError`. -/
def load_processed_ids : Doc → Except PyErr (Finset PyHash)
  | .absent => .ok ∅
  | .invalid => .ok ∅
  | .valid j =>
    match j with
    | .obj kvs => pySet (dictGet kvs "processed_ids" (.arr []))
    | _ => .error .attributeError

/-- Embedding of `save_processed_ids(processed_ids)`: writes
`\x7b"processed_ids": list(processed_ids)\x7d` as JSON.  `list(set)`
enumerates the set in an arbitrary order, so the embedding takes the
enumeration `l` as an argument; theorems quantify over every `l` whose
elements are exactly the saved set. -/
def save_processed_ids (l : List PyHash) : Doc :=
  .valid (.obj [("processed_ids", .arr (l.map PyHash.toJson))])

/-!
## Scopes (src/gmail_service.py)
-/

/-- Embedding of `SCOPES` in `src/gmail_service.py` line 26. -/
def SCOPES : List String :=
  ["https://www.googleapis.com/auth/gmail.readonly"]

/-- Modelled from the spec: the Gmail OAuth scopes that authorize
`users.messages.modify` (removing the `UNREAD` label) — the modify scope
and the full-access scope; `gmail.readonly` is read-only.  Missing from
src/: the Gmail API's server-side scope check. -/
def scopeAllowsModify (s : String) : Bool :=
  s = "https://www.googleapis.com/auth/gmail.modify" ||
    s = "https://mail.google.com/"

/-!
## The orchestrator loop (src/main.py, `main`)

The effectful Gmail/Sheets calls are modelled by an environment giving,
per message id: the result of the `messages().get` fetch (`.error` =
the call raises), whether `extract_email_data` raises (possible in
Python on an ill-typed message object; `.ok` carries the well-typed
message), and whether `append_email_to_sheet` / `mark_email_as_read`
raise.  The `try/except` around the loop body catches any such
exception, logs it and continues with the next id.  The state records
the ledger set, the rows appended to the sheet, and per-id call logs.
-/

/-- Per-message-id behaviour of the external services during one run. -/
structure MsgEnv : Type where
  fetch : Except Unit GMessage
  extractRaises : Bool
  appendOk : Bool
  markOk : Bool

/-- Observable state of one orchestrator run. -/
structure RunState : Type where
  processed_ids : Finset String
  sheet : List (List String)
  appendedFor : List String
  markedRead : List String
  fetched : List String
  processed_count : Nat
  deriving DecidableEq

/-- Initial state of a run whose loaded ledger is `l`. -/
def initState (l : Finset String) : RunState :=
  { processed_ids := l, sheet := [], appendedFor := [], markedRead := [],
    fetched := [], processed_count := 0 }

/-- One iteration of the `for message_id in unread_ids` loop of `main`:
skip if in the ledger, else fetch, extract, skip if no field is truthy,
append the row, mark as read, add to the ledger — any raise is caught
and leaves the loop to continue. -/
def process_message (env : String → MsgEnv) (decode : String → String)
    (st : RunState) (id : String) : RunState :=
  if id ∈ st.processed_ids then st
  else
    let st1 := { st with fetched := st.fetched ++ [id] }
    match (env id).fetch with
    | .error _ => st1
    | .ok message =>
      if (env id).extractRaises then st1
      else
        let email_data := extract_email_data decode message
        if !anyValues email_data then st1
        else
          let row := makeRow email_data
          if !(env id).appendOk then st1
          else
            let st2 := { st1 with sheet := st1.sheet ++ [row],
                                  appendedFor := st1.appendedFor ++ [id] }
            if !(env id).markOk then st2
            else
              { st2 with markedRead := st2.markedRead ++ [id],
                         processed_ids := insert id st2.processed_ids,
                         processed_count := st2.processed_count + 1 }

/-- The whole loop of `main` over the unread ids. -/
def runLoop (env : String → MsgEnv) (decode : String → String)
    (st : RunState) (ids : List String) : RunState :=
  ids.foldl (process_message env decode) st

/-- Processing of `id` succeeds end to end: fetch and extract do not
raise, some extracted field is truthy, and append and mark-read succeed. -/
def succeedsFor (env : String → MsgEnv) (decode : String → String)
    (id : String) : Bool :=
  match (env id).fetch with
  | .error _ => false
  | .ok message =>
    !(env id).extractRaises &&
      anyValues (extract_email_data decode message) &&
      (env id).appendOk && (env id).markOk

/-- One of fetch, extract, append, mark-read raises when `id` is
processed (append and mark-read are only reached when the extracted
data has a truthy field). -/
def raisesFor (env : String → MsgEnv) (decode : String → String)
    (id : String) : Bool :=
  match (env id).fetch with
  | .error _ => true
  | .ok message =>
    (env id).extractRaises ||
      (anyValues (extract_email_data decode message) &&
        (!(env id).appendOk || !(env id).markOk))

/-!
## Spec-side definitions

Definitions following the spec's words, used to compare the code's
behaviour against the claims (refinement style).
-/

/-- The decoded content of a plain-text leaf with encoded data `d`
(the code decodes only nonempty data). -/
def leafContent (decode : String → String) (d : String) : String :=
  if d = "" then "" else decode d

mutual
/-- Following the claim's words: the encoded data of the first
`text/plain` leaf in depth-first order, recursing into multipart
containers and treating every other node as a leaf to ignore. -/
def firstPlainLeaf : Payload → Option String
  | .mk _ m d ps =>
    if m = "text/plain" then some d
    else if pyStartsWith m "multipart/" then firstPlainLeafList ps
    else none

def firstPlainLeafList : PayloadList → Option String
  | .nil => none
  | .cons p ps =>
    match firstPlainLeaf p with
    | some d => some d
    | none => firstPlainLeafList ps
end

mutual
/-- Following the amended claim's words: the decoded content of the
first `text/plain` leaf whose decoded content is nonempty, in
depth-first order, recursing into multipart containers only. -/
def firstNonemptyPlain (decode : String → String) : Payload → Option String
  | .mk _ m d ps =>
    if m = "text/plain" then
      if leafContent decode d ≠ "" then some (leafContent decode d) else none
    else if pyStartsWith m "multipart/" then firstNonemptyPlainList decode ps
    else none

def firstNonemptyPlainList (decode : String → String) :
    PayloadList → Option String
  | .nil => none
  | .cons p ps =>
    match firstNonemptyPlain decode p with
    | some c => some c
    | none => firstNonemptyPlainList decode ps
end

mutual
/-- A `text/plain` node is reachable (recursing into multipart nodes). -/
def containsPlain : Payload → Bool
  | .mk _ m _ ps =>
    if m = "text/plain" then true
    else if pyStartsWith m "multipart/" then containsPlainList ps
    else false

def containsPlainList : PayloadList → Bool
  | .nil => false
  | .cons p ps => containsPlain p || containsPlainList ps
end

/-- Following the spec's words: a field is absent when it is `None` or
the empty string (the spec treats an empty-string body like an absent
one). -/
def isAbsent (v : Option String) : Bool :=
  v = none || v = some ""

/-- Following the spec's words: an absent field is replaced by its fixed
placeholder; a present field is kept unchanged. -/
def specPlaceholder (v : Option String) (ph : String) : String :=
  if isAbsent v then ph else v.getD ""

/-- Following the spec's words: the appended row is the extracted record
with placeholders substituted for absent fields. -/
def specRow (d : EmailData) : List String :=
  [specPlaceholder d.sender "Unknown",
   specPlaceholder d.subject "No Subject",
   specPlaceholder d.received_at "Unknown Date",
   specPlaceholder d.body "No Body"]

/-- The run reaches and performs the sheet append for `id` (the fields
up to and including `appendOk`; `markOk` is irrelevant to appending). -/
def appendHappens (env : String → MsgEnv) (decode : String → String)
    (id : String) : Bool :=
  match (env id).fetch with
  | .error _ => false
  | .ok message =>
    !(env id).extractRaises &&
      anyValues (extract_email_data decode message) && (env id).appendOk

/-- Is a hashable value a string? -/
def isStrHash : PyHash → Bool
  | .str _ => true
  | _ => false

/-- The string carried by a hashable value (`""` otherwise). -/
def strOfHash : PyHash → String
  | .str s => s
  | _ => ""

/-- The string identifiers denoted by a set of hashable values. -/
def strsOf (t : Finset PyHash) : Finset String :=
  (t.filter (fun h => isStrHash h = true)).image strOfHash

/-!
## Concrete instances for witnesses and counterexamples
-/

/-- A simple message: one `From` header and a plain-text body. -/
def msgSimple : GMessage :=
  { payload := .mk [("From", "Alice <alice@example.com>")] "text/plain"
      "hello" .nil }

/-- A message every extracted field of which is absent: no headers and an
HTML-only payload. -/
def msgEmpty : GMessage :=
  { payload := .mk [] "text/html" "ignored" .nil }

/-- Payload for the C4 counterexample: a multipart container whose first
plain-text leaf has empty data and whose second decodes to `"hi"`. -/
def cexPayload : Payload :=
  .mk [] "multipart/mixed" ""
    (.cons (.mk [] "text/plain" "" .nil)
      (.cons (.mk [] "text/plain" "hi" .nil) .nil))

/-- Payload for the C4 scenario: an HTML leaf followed by a nested
plain-text leaf. -/
def scenarioPayload (d : String) : Payload :=
  .mk [] "multipart/alternative" ""
    (.cons (.mk [] "text/html" "x" .nil)
      (.cons (.mk [] "multipart/mixed" ""
        (.cons (.mk [] "text/plain" d .nil) .nil)) .nil))

/-- An environment in which every call succeeds and every message is
`msgSimple`. -/
def envAllOk : String → MsgEnv := fun _ =>
  { fetch := .ok msgSimple, extractRaises := false,
    appendOk := true, markOk := true }

/-- An environment realising the spec's scenario: for id `"A"` the
append succeeds but mark-as-read raises; every other id succeeds. -/
def envMarkFailsA : String → MsgEnv := fun id =>
  { fetch := .ok msgSimple, extractRaises := false, appendOk := true,
    markOk := id ≠ "A" }

/-- An environment in which fetching `"B"` yields the all-absent message
and everything else succeeds. -/
def envEmptyB : String → MsgEnv := fun id =>
  { fetch := .ok (if id = "B" then msgEmpty else msgSimple),
    extractRaises := false, appendOk := true, markOk := true }

/-!
## Helper lemmas about one loop iteration
-/

theorem pm_skip (env : String → MsgEnv) (decode : String → String)
    (st : RunState) (id : String) (h : id ∈ st.processed_ids) :
    process_message env decode st id = st := by
  simp [process_message, h]

theorem pm_processed_ids (env : String → MsgEnv) (decode : String → String)
    (st : RunState) (id : String) :
    (process_message env decode st id).processed_ids =
      if id ∉ st.processed_ids ∧ succeedsFor env decode id = true then
        insert id st.processed_ids
      else st.processed_ids := by
  by_cases h : id ∈ st.processed_ids
  · simp [pm_skip, h]
  · unfold process_message succeedsFor
    rcases hf : (env id).fetch with e | message
    · simp [h, hf]
    · by_cases he : (env id).extractRaises = true
      · simp [h, hf, he]
      · by_cases ha : anyValues (extract_email_data decode message) = true
        · by_cases hap : (env id).appendOk = true
          · by_cases hm : (env id).markOk = true
            · simp [h, hf, he, ha, hap, hm]
            · simp [h, hf, he, ha, hap, hm]
          · simp [h, hf, he, ha, hap]
        · simp [h, hf, he, ha]

theorem pm_appendedFor (env : String → MsgEnv) (decode : String → String)
    (st : RunState) (id : String) :
    (process_message env decode st id).appendedFor =
      if id ∉ st.processed_ids ∧ appendHappens env decode id = true then
        st.appendedFor ++ [id]
      else st.appendedFor := by
  by_cases h : id ∈ st.processed_ids
  · simp [pm_skip, h]
  · unfold process_message appendHappens
    rcases hf : (env id).fetch with e | message
    · simp [h, hf]
    · by_cases he : (env id).extractRaises = true
      · simp [h, hf, he]
      · by_cases ha : anyValues (extract_email_data decode message) = true
        · by_cases hap : (env id).appendOk = true
          · by_cases hm : (env id).markOk = true
            · simp [h, hf, he, ha, hap, hm]
            · simp [h, hf, he, ha, hap, hm]
          · simp [h, hf, he, ha, hap]
        · simp [h, hf, he, ha]

theorem pm_mono (env : String → MsgEnv) (decode : String → String)
    (st : RunState) (id : String) :
    st.processed_ids ⊆ (process_message env decode st id).processed_ids := by
  rw [pm_processed_ids]
  split
  · exact Finset.subset_insert _ _
  · exact Finset.Subset.refl _

theorem pm_mem (env : String → MsgEnv) (decode : String → String)
    (st : RunState) (id id' : String) :
    id' ∈ (process_message env decode st id).processed_ids ↔
      id' ∈ st.processed_ids ∨
        (id' = id ∧ succeedsFor env decode id = true) := by
  rw [pm_processed_ids]
  split
  case isTrue h =>
    simp only [Finset.mem_insert]
    constructor
    · rintro (rfl | hmem)
      · exact Or.inr ⟨rfl, h.2⟩
      · exact Or.inl hmem
    · rintro (hmem | ⟨rfl, _⟩)
      · exact Or.inr hmem
      · exact Or.inl rfl
  case isFalse h =>
    constructor
    · exact Or.inl
    · rintro (hmem | ⟨rfl, hs⟩)
      · exact hmem
      · by_contra hn
        exact h ⟨hn, hs⟩

theorem succeeds_parts (env : String → MsgEnv) (decode : String → String)
    (id : String) (h : succeedsFor env decode id = true) :
    (env id).appendOk = true ∧ (env id).markOk = true ∧
      appendHappens env decode id = true := by
  unfold succeedsFor at h
  unfold appendHappens
  rcases hf : (env id).fetch with e | message
  · rw [hf] at h; cases h
  · rw [hf] at h
    simp only [Bool.and_eq_true, Bool.not_eq_true'] at h
    simp [h.1.1.1, h.1.1.2, h.1.2, h.2]

theorem raises_not_succeeds (env : String → MsgEnv)
    (decode : String → String) (id : String)
    (h : raisesFor env decode id = true) :
    succeedsFor env decode id = false := by
  unfold raisesFor at h
  unfold succeedsFor
  rcases hf : (env id).fetch with e | message
  · rfl
  · rw [hf] at h
    cases he : (env id).extractRaises <;>
      cases ha : anyValues (extract_email_data decode message) <;>
      cases hap : (env id).appendOk <;>
      cases hm : (env id).markOk <;>
      simp_all

/-!
## Helper lemmas about the whole loop
-/

theorem runLoop_cons (env : String → MsgEnv) (decode : String → String)
    (st : RunState) (id : String) (ids : List String) :
    runLoop env decode st (id :: ids) =
      runLoop env decode (process_message env decode st id) ids := rfl

theorem runLoop_append (env : String → MsgEnv) (decode : String → String)
    (st : RunState) (pre post : List String) :
    runLoop env decode st (pre ++ post) =
      runLoop env decode (runLoop env decode st pre) post :=
  List.foldl_append _ _ _ _

theorem runLoop_mem (env : String → MsgEnv) (decode : String → String)
    (ids : List String) : ∀ (st : RunState) (id : String),
    id ∈ (runLoop env decode st ids).processed_ids ↔
      id ∈ st.processed_ids ∨
        (id ∈ ids ∧ succeedsFor env decode id = true) := by
  induction ids with
  | nil => simp [runLoop]
  | cons j ids ih =>
    intro st id
    rw [runLoop_cons, ih, pm_mem]
    simp only [List.mem_cons]
    constructor
    · rintro ((hmem | ⟨rfl, hs⟩) | ⟨hmem, hs⟩)
      · exact Or.inl hmem
      · exact Or.inr ⟨Or.inl rfl, hs⟩
      · exact Or.inr ⟨Or.inr hmem, hs⟩
    · rintro (hmem | ⟨rfl | hmem, hs⟩)
      · exact Or.inl (Or.inl hmem)
      · exact Or.inl (Or.inr ⟨rfl, hs⟩)
      · exact Or.inr ⟨hmem, hs⟩

theorem runLoop_count_skip (env : String → MsgEnv)
    (decode : String → String) (ids : List String) :
    ∀ (st : RunState) (id : String), id ∈ st.processed_ids →
    ((runLoop env decode st ids).appendedFor).count id =
      st.appendedFor.count id := by
  induction ids with
  | nil => intro st id _; rfl
  | cons j ids ih =>
    intro st id h
    rw [runLoop_cons, ih _ _ (pm_mono env decode st j h), pm_appendedFor]
    split
    next hc =>
      have hne : j ≠ id := fun e => hc.1 (e ▸ h)
      simp [List.count_append, List.count_cons, hne]
    next => rfl

theorem runLoop_count_success (env : String → MsgEnv)
    (decode : String → String) (ids : List String) :
    ∀ (st : RunState) (id : String), id ∉ st.processed_ids →
    succeedsFor env decode id = true → id ∈ ids →
    ((runLoop env decode st ids).appendedFor).count id =
      st.appendedFor.count id + 1 := by
  induction ids with
  | nil => intro st id _ _ h; cases h
  | cons j ids ih =>
    intro st id hnot hs hmem
    by_cases hj : id = j
    · subst hj
      have hAdd : id ∈ (process_message env decode st id).processed_ids := by
        rw [pm_mem]; exact Or.inr ⟨rfl, hs⟩
      rw [runLoop_cons, runLoop_count_skip env decode ids _ _ hAdd,
        pm_appendedFor, if_pos ⟨hnot, (succeeds_parts env decode id hs).2.2⟩]
      simp [List.count_append]
    · have hmem' : id ∈ ids := by
        rcases List.mem_cons.mp hmem with rfl | h
        · exact absurd rfl hj
        · exact h
      have hnot' : id ∉ (process_message env decode st j).processed_ids := by
        rw [pm_mem]
        rintro (h | ⟨rfl, _⟩)
        · exact hnot h
        · exact hj rfl
      rw [runLoop_cons, ih _ _ hnot' hs hmem', pm_appendedFor]
      split
      next hc =>
        have hne : j ≠ id := fun e => hj e.symm
        simp [List.count_append, List.count_cons, hne]
      next => rfl

/-!
## Helper lemmas about the ledger file
-/

theorem toHashable_toJson (h : PyHash) : toHashable h.toJson = some h := by
  cases h <;> rfl

theorem hashList_toJson (l : List PyHash) :
    hashList (l.map PyHash.toJson) = some l := by
  induction l with
  | nil => rfl
  | cons h l ih => simp [hashList, toHashable_toJson, ih]

theorem load_save (l : List PyHash) :
    load_processed_ids (save_processed_ids l) = .ok l.toFinset := by
  unfold save_processed_ids load_processed_ids dictGet
  simp [pySet, hashList_toJson]

theorem strsOf_image (s : Finset String) :
    strsOf (s.image PyHash.str) = s := by
  ext x
  simp only [strsOf, Finset.mem_image, Finset.mem_filter]
  constructor
  · rintro ⟨h, ⟨⟨a, ha, rfl⟩, _⟩, rfl⟩
    exact ha
  · intro hx
    exact ⟨.str x, ⟨⟨x, hx, rfl⟩, rfl⟩, rfl⟩

/-!
## Helper lemmas about body extraction
-/

mutual
theorem firstNonemptyPlain_ne (decode : String → String) :
    ∀ (p : Payload) (c : String),
      firstNonemptyPlain decode p = some c → c ≠ ""
  | .mk hs m d ps => by
    intro c h
    unfold firstNonemptyPlain at h
    by_cases h1 : m = "text/plain"
    · rw [if_pos h1] at h
      split at h
      next hne => cases h; exact hne
      next => cases h
    · rw [if_neg h1] at h
      by_cases h2 : pyStartsWith m "multipart/"
      · rw [if_pos h2] at h
        exact firstNonemptyPlainList_ne decode ps c h
      · rw [if_neg h2] at h; cases h

theorem firstNonemptyPlainList_ne (decode : String → String) :
    ∀ (ps : PayloadList) (c : String),
      firstNonemptyPlainList decode ps = some c → c ≠ ""
  | .nil => by intro c h; cases h
  | .cons p ps => by
    intro c h
    unfold firstNonemptyPlainList at h
    cases hx : firstNonemptyPlain decode p with
    | some c' =>
      rw [hx] at h
      cases h
      exact firstNonemptyPlain_ne decode p c hx
    | none =>
      rw [hx] at h
      exact firstNonemptyPlainList_ne decode ps c h
end

mutual
theorem gptb_eq_firstNonempty (decode : String → String) :
    ∀ p : Payload,
      get_plain_text_body decode p = (firstNonemptyPlain decode p).getD ""
  | .mk hs m d ps => by
    unfold get_plain_text_body firstNonemptyPlain
    by_cases h1 : m = "text/plain"
    · rw [if_pos h1, if_pos h1]
      unfold leafContent
      by_cases hd : d = ""
      · simp [hd]
      · by_cases hc : decode d = ""
        · simp [hd, hc]
        · simp [hd, hc]
    · rw [if_neg h1, if_neg h1]
      by_cases h2 : pyStartsWith m "multipart/"
      · rw [if_pos h2, if_pos h2]
        exact ftb_eq_firstNonemptyList decode ps
      · rw [if_neg h2, if_neg h2]; rfl

theorem ftb_eq_firstNonemptyList (decode : String → String) :
    ∀ ps : PayloadList,
      firstTruthyBody decode ps =
        (firstNonemptyPlainList decode ps).getD ""
  | .nil => rfl
  | .cons p ps => by
    unfold firstTruthyBody firstNonemptyPlainList
    rw [gptb_eq_firstNonempty decode p, ftb_eq_firstNonemptyList decode ps]
    cases hx : firstNonemptyPlain decode p with
    | some c =>
      have hne := firstNonemptyPlain_ne decode p c hx
      simp [hne]
    | none => simp
end

mutual
theorem gptb_of_not_containsPlain (decode : String → String) :
    ∀ p : Payload, containsPlain p = false →
      get_plain_text_body decode p = ""
  | .mk hs m d ps => by
    intro h
    unfold containsPlain at h
    unfold get_plain_text_body
    by_cases h1 : m = "text/plain"
    · rw [if_pos h1] at h; cases h
    · rw [if_neg h1] at h ⊢
      by_cases h2 : pyStartsWith m "multipart/"
      · rw [if_pos h2] at h ⊢
        exact ftb_of_not_containsPlainList decode ps h
      · rw [if_neg h2]

theorem ftb_of_not_containsPlainList (decode : String → String) :
    ∀ ps : PayloadList, containsPlainList ps = false →
      firstTruthyBody decode ps = ""
  | .nil => fun _ => rfl
  | .cons p ps => by
    intro h
    unfold containsPlainList at h
    rw [Bool.or_eq_false_iff] at h
    unfold firstTruthyBody
    rw [gptb_of_not_containsPlain decode p h.1]
    simp [ftb_of_not_containsPlainList decode ps h.2]
end

/-!
## Helper lemmas about header extraction and the row
-/

theorem foldl_sender_none (hs : List (String × String)) :
    ∀ acc : EmailData, (∀ h ∈ hs, pyLower h.1 ≠ "from") →
    (hs.foldl applyHeader acc).sender = acc.sender := by
  induction hs with
  | nil => intro acc _; rfl
  | cons h hs ih =>
    intro acc hforall
    rw [List.foldl_cons,
      ih _ (fun x hx => hforall x (List.mem_cons_of_mem _ hx))]
    have hfrom := hforall h (List.mem_cons_self _ _)
    by_cases h2 : pyLower h.1 = "subject" <;>
      by_cases h3 : pyLower h.1 = "date" <;>
      simp [applyHeader, hfrom, h2, h3]

theorem foldl_subject_none (hs : List (String × String)) :
    ∀ acc : EmailData, (∀ h ∈ hs, pyLower h.1 ≠ "subject") →
    (hs.foldl applyHeader acc).subject = acc.subject := by
  induction hs with
  | nil => intro acc _; rfl
  | cons h hs ih =>
    intro acc hforall
    rw [List.foldl_cons,
      ih _ (fun x hx => hforall x (List.mem_cons_of_mem _ hx))]
    have hsub := hforall h (List.mem_cons_self _ _)
    by_cases h1 : pyLower h.1 = "from"
    · simp only [applyHeader, h1]
      simp only [if_pos]
      split <;> rfl
    · by_cases h3 : pyLower h.1 = "date" <;>
        simp [applyHeader, h1, hsub, h3]

theorem foldl_received_none (hs : List (String × String)) :
    ∀ acc : EmailData, (∀ h ∈ hs, pyLower h.1 ≠ "date") →
    (hs.foldl applyHeader acc).received_at = acc.received_at := by
  induction hs with
  | nil => intro acc _; rfl
  | cons h hs ih =>
    intro acc hforall
    rw [List.foldl_cons,
      ih _ (fun x hx => hforall x (List.mem_cons_of_mem _ hx))]
    have hdate := hforall h (List.mem_cons_self _ _)
    by_cases h1 : pyLower h.1 = "from"
    · simp only [applyHeader, h1]
      simp only [if_pos]
      split <;> rfl
    · by_cases h2 : pyLower h.1 = "subject" <;>
        simp [applyHeader, h1, h2, hdate]

theorem pyOr_eq_specPlaceholder (v : Option String) (ph : String) :
    pyOr v ph = specPlaceholder v ph := by
  cases v with
  | none => rfl
  | some s =>
    by_cases hs : s = ""
    · simp [pyOr, specPlaceholder, isAbsent, hs]
    · simp [pyOr, specPlaceholder, isAbsent, hs]

theorem makeRow_eq_specRow (d : EmailData) : makeRow d = specRow d := by
  simp [makeRow, specRow, pyOr_eq_specPlaceholder]

/-!
## Claim theorems
-/

/-- Claim C1: in a single orchestrator run, an identifier is added to the
ledger only if both the spreadsheet append and the mark-as-read call
succeeded for it; if fetch, extract, append or mark-read raises for an
identifier, that identifier is not added to the ledger (the exception is
caught) and the loop continues with the remaining identifiers — the run
is never aborted. -/
theorem C1_ledger_only_on_success (env : String → MsgEnv)
    (decode : String → String) (st : RunState) (ids : List String) :
    (∀ id, id ∈ (runLoop env decode st ids).processed_ids →
      id ∈ st.processed_ids ∨
        ((env id).appendOk = true ∧ (env id).markOk = true)) ∧
    (∀ id, raisesFor env decode id = true → id ∉ st.processed_ids →
      id ∉ (runLoop env decode st ids).processed_ids) ∧
    (∀ pre post, runLoop env decode st (pre ++ post) =
      runLoop env decode (runLoop env decode st pre) post) := by
  refine ⟨?_, ?_, ?_⟩
  · intro id h
    rcases (runLoop_mem env decode ids st id).mp h with h | ⟨_, hs⟩
    · exact Or.inl h
    · have hp := succeeds_parts env decode id hs
      exact Or.inr ⟨hp.1, hp.2.1⟩
  · intro id hr hnot h
    rcases (runLoop_mem env decode ids st id).mp h with h | ⟨_, hs⟩
    · exact hnot h
    · rw [raises_not_succeeds env decode id hr] at hs
      cases hs
  · intro pre post
    exact runLoop_append env decode st pre post

/-- Witness for C1: in the spec's scenario the append succeeds for `"A"`
but mark-as-read raises, so `"A"` is not in the final ledger while the
run continues and fully processes `"B"`; the sheet still got `"A"`'s row
once (the documented duplicate-on-retry behaviour). -/
theorem C1_witness :
    "A" ∉ (runLoop envMarkFailsA (fun s => s) (initState ∅)
      ["A", "B"]).processed_ids ∧
    "B" ∈ (runLoop envMarkFailsA (fun s => s) (initState ∅)
      ["A", "B"]).processed_ids ∧
    ((runLoop envMarkFailsA (fun s => s) (initState ∅)
      ["A", "B"]).appendedFor).count "A" = 1 :=
  ⟨(C1_ledger_only_on_success envMarkFailsA (fun s => s) (initState ∅)
      ["A", "B"]).2.1 "A" (by decide) (by decide),
   by decide, by decide⟩

/-- Claim C7: when every extracted field of a fetched message is absent
(no truthy value), the iteration for that identifier appends no row,
marks nothing as read and adds no ledger entry, and the loop continues
with the remaining identifiers. -/
theorem C7_all_absent_no_side_effects (env : String → MsgEnv)
    (decode : String → String) (st : RunState) (id : String)
    (message : GMessage)
    (hnot : id ∉ st.processed_ids)
    (hf : (env id).fetch = .ok message)
    (he : (env id).extractRaises = false)
    (ha : anyValues (extract_email_data decode message) = false) :
    (process_message env decode st id).sheet = st.sheet ∧
    (process_message env decode st id).appendedFor = st.appendedFor ∧
    (process_message env decode st id).markedRead = st.markedRead ∧
    (process_message env decode st id).processed_ids = st.processed_ids ∧
    ∀ rest, runLoop env decode st (id :: rest) =
      runLoop env decode (process_message env decode st id) rest := by
  have h1 : process_message env decode st id =
      { st with fetched := st.fetched ++ [id] } := by
    unfold process_message
    simp [hnot, hf, he, ha]
  exact ⟨by rw [h1], by rw [h1], by rw [h1], by rw [h1], fun rest => rfl⟩

/-- Witness for C7: in the spec's scenario `["A", "B"]` with `B`
extracting all-absent fields, processing `B` changes no observable state
and the whole run ends with one appended row and ledger `\x7bA\x7d`. -/
theorem C7_witness :
    (process_message envEmptyB (fun s => s)
      (process_message envEmptyB (fun s => s) (initState ∅) "A")
      "B").sheet =
      (process_message envEmptyB (fun s => s) (initState ∅) "A").sheet ∧
    (runLoop envEmptyB (fun s => s) (initState ∅)
      ["A", "B"]).processed_ids = {"A"} ∧
    (runLoop envEmptyB (fun s => s) (initState ∅) ["A", "B"]).sheet =
      [["alice@example.com", "No Subject", "Unknown Date", "hello"]] ∧
    (runLoop envEmptyB (fun s => s) (initState ∅)
      ["A", "B"]).markedRead = ["A"] :=
  ⟨(C7_all_absent_no_side_effects envEmptyB (fun s => s)
      (process_message envEmptyB (fun s => s) (initState ∅) "A") "B"
      msgEmpty (by decide) (by decide) (by decide) (by decide)).1,
   by decide, by decide, by decide⟩

/-- Claim C8: an identifier already in the ledger at its loop iteration
is skipped with no side effects at all — the state (including the
fetch, append and mark-read call logs and the ledger) is unchanged, and
the loop continues with the remaining identifiers. -/
theorem C8_skip_processed (env : String → MsgEnv)
    (decode : String → String) (st : RunState) (id : String)
    (h : id ∈ st.processed_ids) :
    process_message env decode st id = st ∧
    ∀ rest, runLoop env decode st (id :: rest) =
      runLoop env decode st rest := by
  constructor
  · exact pm_skip env decode st id h
  · intro rest
    rw [runLoop_cons, pm_skip env decode st id h]

/-- Witness for C8: with ledger `\x7bA\x7d` and unread `["A"]`, processing
`"A"` leaves the state untouched. -/
theorem C8_witness :
    process_message envAllOk (fun s => s) (initState {"A"}) "A" =
      initState {"A"} :=
  (C8_skip_processed envAllOk (fun s => s) (initState {"A"}) "A"
    (by decide)).1

/-- Claim C5: when at least one extracted field is present, the row
appended to the sheet is the extracted record with each absent field
replaced by its fixed placeholder (`Unknown`, `No Subject`,
`Unknown Date`, `No Body`) and each present field left unchanged. -/
theorem C5_row_placeholders (env : String → MsgEnv)
    (decode : String → String) (st : RunState) (id : String)
    (message : GMessage)
    (hnot : id ∉ st.processed_ids)
    (hf : (env id).fetch = .ok message)
    (he : (env id).extractRaises = false)
    (ha : anyValues (extract_email_data decode message) = true)
    (hap : (env id).appendOk = true) :
    (process_message env decode st id).sheet =
      st.sheet ++ [specRow (extract_email_data decode message)] ∧
    (∀ v ph, isAbsent v = true → specPlaceholder v ph = ph) ∧
    (∀ s ph, s ≠ "" → specPlaceholder (some s) ph = s) := by
  refine ⟨?_, ?_, ?_⟩
  · unfold process_message
    rw [if_neg hnot]
    by_cases hm : (env id).markOk = true
    · simp [hf, he, ha, hap, hm, makeRow_eq_specRow]
    · simp [hf, he, ha, hap, hm, makeRow_eq_specRow]
  · intro v ph h
    simp [specPlaceholder, h]
  · intro s ph h
    simp [specPlaceholder, isAbsent, h]

/-- Witness for C5: `msgSimple` has sender and body present, subject and
date absent, so its appended row carries the two present values and the
two placeholders. -/
theorem C5_witness :
    (process_message envAllOk (fun s => s) (initState ∅) "A").sheet =
      (initState ∅).sheet ++
        [specRow (extract_email_data (fun s => s) msgSimple)] :=
  (C5_row_placeholders envAllOk (fun s => s) (initState ∅) "A" msgSimple
    (by decide) (by decide) (by decide) (by decide) (by decide)).1

/-- Claim C2 (counterexample): with fixed unread ids `["a"]`, starting
ledger containing `"a"`, an all-success environment, and a successful
ledger save and reload between the runs, the row for `"a"` is appended
zero times across both runs — not exactly once as the claim states for
any starting ledger. -/
theorem C2_counterexample :
    succeedsFor envAllOk (fun s => s) "a" = true ∧
    ([PyHash.str "a"] : List PyHash).toFinset =
      ((runLoop envAllOk (fun s => s) (initState {"a"})
        ["a"]).processed_ids).image PyHash.str ∧
    load_processed_ids (save_processed_ids [PyHash.str "a"]) =
      .ok {PyHash.str "a"} ∧
    ((runLoop envAllOk (fun s => s) (initState {"a"}) ["a"]).appendedFor
        ++ (runLoop envAllOk (fun s => s)
          (initState (strsOf {PyHash.str "a"})) ["a"]).appendedFor).count
      "a" = 0 ∧
    (0 : Nat) ≠ 1 :=
  ⟨by decide, by decide, by decide, by decide, by decide⟩

/-- Claim C2 (amended): for every fixed unread list, starting ledger and
environment, each identifier that is not already in the starting ledger
and whose processing fully succeeds in run 1 has its row appended
exactly once across the two runs, when the ledger saved after run 1 is
reloaded for run 2 — in particular, no duplicate row for any identifier
fully processed in run 1. -/
theorem C2_appends_once (env : String → MsgEnv)
    (decode : String → String) (L0 : Finset String) (ids : List String)
    (l : List PyHash) (t : Finset PyHash)
    (hl : l.toFinset =
      ((runLoop env decode (initState L0) ids).processed_ids).image
        PyHash.str)
    (ht : load_processed_ids (save_processed_ids l) = .ok t)
    (id : String) (hid : id ∈ ids) (hnot : id ∉ L0)
    (hs : succeedsFor env decode id = true) :
    ((runLoop env decode (initState L0) ids).appendedFor ++
      (runLoop env decode (initState (strsOf t)) ids).appendedFor).count
      id = 1 := by
  have hrun1 :
      ((runLoop env decode (initState L0) ids).appendedFor).count id
        = 1 := by
    have h := runLoop_count_success env decode ids (initState L0) id
      hnot hs hid
    simpa [initState] using h
  have hmem1 :
      id ∈ (runLoop env decode (initState L0) ids).processed_ids := by
    rw [runLoop_mem]
    exact Or.inr ⟨hid, hs⟩
  have ht' : t =
      ((runLoop env decode (initState L0) ids).processed_ids).image
        PyHash.str := by
    rw [load_save] at ht
    rw [← Except.ok.inj ht, hl]
  have hstr : strsOf t =
      (runLoop env decode (initState L0) ids).processed_ids := by
    rw [ht', strsOf_image]
  have hmem2 : id ∈ (initState (strsOf t)).processed_ids := by
    simpa [initState, hstr] using hmem1
  have hrun2 :
      ((runLoop env decode (initState (strsOf t)) ids).appendedFor).count
        id = 0 := by
    have h := runLoop_count_skip env decode ids (initState (strsOf t))
      id hmem2
    simpa [initState] using h
  rw [List.count_append, hrun1, hrun2]

/-- Witness for C2 (amended): with empty starting ledger and unread
`["a"]` fully succeeding, the two runs append `"a"`'s row exactly once. -/
theorem C2_witness :
    ((runLoop envAllOk (fun s => s) (initState ∅) ["a"]).appendedFor ++
      (runLoop envAllOk (fun s => s) (initState (strsOf {PyHash.str "a"}))
        ["a"]).appendedFor).count "a" = 1 :=
  C2_appends_once envAllOk (fun s => s) ∅ ["a"] [PyHash.str "a"]
    {PyHash.str "a"} (by decide) (by decide) "a" (by decide) (by decide)
    (by decide)

/-- Claim C3 (code bug): the Gmail authentication requests only the
read-only scope, and no requested scope authorizes the message-modify
call that `mark_email_as_read` performs — contradicting the spec's
requirement of a read/modify-scoped credential. -/
theorem C3_scopes_no_modify :
    SCOPES = ["https://www.googleapis.com/auth/gmail.readonly"] ∧
    SCOPES.any scopeAllowsModify = false :=
  ⟨rfl, by decide⟩

/-- Claim C4 (counterexample): for a multipart payload whose first
plain-text leaf in depth-first order has empty content and whose second
decodes to `"hi"`, the code returns `"hi"`, not the first leaf's decoded
content `""` — refuting the claim that the first plain-text leaf found
is returned. -/
theorem C4_counterexample :
    firstPlainLeaf cexPayload = some "" ∧
    leafContent (fun s => s) "" = "" ∧
    get_plain_text_body (fun s => s) cexPayload = "hi" ∧
    ("hi" : String) ≠ "" :=
  ⟨by decide, rfl, by decide, by decide⟩

/-- Claim C4 (amended): extraction returns the decoded content of the
first plain-text leaf **with nonempty decoded content** in depth-first
order (recursing into multipart containers only, so HTML and other
non-plain leaves are ignored), or `""` when there is none; in
particular, for a multipart structure with an HTML leaf followed by a
nested plain-text leaf with nonempty content, it returns that leaf's
decoded content. -/
theorem C4_first_nonempty_plain_dfs (decode : String → String)
    (p : Payload) :
    get_plain_text_body decode p =
      (firstNonemptyPlain decode p).getD "" ∧
    (∀ d, d ≠ "" → decode d ≠ "" →
      get_plain_text_body decode (scenarioPayload d) = decode d) := by
  constructor
  · exact gptb_eq_firstNonempty decode p
  · intro d hd hdec
    have h1 : pyStartsWith "multipart/alternative" "multipart/" = true :=
      by decide
    have h2 : pyStartsWith "multipart/mixed" "multipart/" = true :=
      by decide
    have h3 : ("multipart/alternative" : String) ≠ "text/plain" :=
      by decide
    have h4 : ("text/html" : String) ≠ "text/plain" := by decide
    have h5 : pyStartsWith "text/html" "multipart/" = false := by decide
    have h6 : ("multipart/mixed" : String) ≠ "text/plain" := by decide
    simp [scenarioPayload, get_plain_text_body, firstTruthyBody,
      h1, h2, h3, h4, h5, h6, hd, hdec]

/-- Witness for C4 (amended): on the spec's scenario payload the code
returns the nested plain-text leaf's decoded content. -/
theorem C4_witness :
    get_plain_text_body (fun s => s) (scenarioPayload "hi") = "hi" :=
  (C4_first_nonempty_plain_dfs (fun s => s) (scenarioPayload "hi")).2
    "hi" (by decide) (by decide)

/-- Claim C6 (code bug): loading returns the empty set for an absent
file, an undecodable file and a decoded object lacking the key, but a
decodable document whose top level is not an object (e.g. the JSON text
`[]`) raises an uncaught `AttributeError` at `data.get` — contradicting
the claim and the function's own docstring. -/
theorem C6_load_corrupt_raises :
    load_processed_ids Doc.absent = .ok ∅ ∧
    load_processed_ids Doc.invalid = .ok ∅ ∧
    load_processed_ids (Doc.valid (Json.obj [])) = .ok ∅ ∧
    load_processed_ids (Doc.valid (Json.arr [])) =
      .error PyErr.attributeError :=
  ⟨rfl, rfl, by decide, rfl⟩

/-- Claim C9: for every persisted document readable by load, saving the
loaded set (under any enumeration order of it) yields a document that
load reads back as exactly the same set — `save(load())` is a no-op on
the denoted set of identifiers. -/
theorem C9_roundtrip (doc : Doc) (s : Finset PyHash)
    (h : load_processed_ids doc = .ok s)
    (l : List PyHash) (hl : l.toFinset = s) :
    load_processed_ids (save_processed_ids l) = .ok s ∧
    load_processed_ids (save_processed_ids l) = load_processed_ids doc :=
  by rw [load_save, hl, h]; exact ⟨rfl, rfl⟩

/-- Witness for C9: round trip on a document holding one identifier. -/
theorem C9_witness :
    load_processed_ids (save_processed_ids [PyHash.str "x"]) =
      .ok {PyHash.str "x"} :=
  (C9_roundtrip
    (Doc.valid (Json.obj [("processed_ids", Json.arr [Json.str "x"])]))
    {PyHash.str "x"} (by decide) [PyHash.str "x"] (by decide)).1

/-- Claim C10: the extracted `body` is always a string (never `None`,
and `""` exactly when no plain-text part is reachable), while `sender`,
`subject` and `received_at` are `None` when their headers are missing;
truthiness makes the all-absent skip and the placeholder substitution
treat an empty-string body exactly like an absent one. -/
theorem C10_body_always_string (decode : String → String)
    (message : GMessage) :
    (extract_email_data decode message).body =
      some (get_plain_text_body decode message.payload) ∧
    (containsPlain message.payload = false →
      (extract_email_data decode message).body = some "") ∧
    ((∀ h ∈ message.payload.headers, pyLower h.1 ≠ "from") →
      (extract_email_data decode message).sender = none) ∧
    ((∀ h ∈ message.payload.headers, pyLower h.1 ≠ "subject") →
      (extract_email_data decode message).subject = none) ∧
    ((∀ h ∈ message.payload.headers, pyLower h.1 ≠ "date") →
      (extract_email_data decode message).received_at = none) ∧
    pyTruthy (some "") = pyTruthy none ∧
    (∀ ph, pyOr (some "") ph = pyOr none ph) ∧
    (∀ d : EmailData, anyValues { d with body := some "" } =
      anyValues { d with body := none }) := by
  refine ⟨rfl, ?_, ?_, ?_, ?_, by decide, fun ph => rfl, ?_⟩
  · intro h
    show some (get_plain_text_body decode message.payload) = some ""
    rw [gptb_of_not_containsPlain decode message.payload h]
  · intro h
    show ((message.payload.headers.foldl applyHeader
      { sender := none, subject := none, received_at := none,
        body := none }).sender) = none
    rw [foldl_sender_none message.payload.headers _ h]
  · intro h
    show ((message.payload.headers.foldl applyHeader
      { sender := none, subject := none, received_at := none,
        body := none }).subject) = none
    rw [foldl_subject_none message.payload.headers _ h]
  · intro h
    show ((message.payload.headers.foldl applyHeader
      { sender := none, subject := none, received_at := none,
        body := none }).received_at) = none
    rw [foldl_received_none message.payload.headers _ h]
  · intro d
    simp [anyValues, pyTruthy]

/-- Witness for C10: the all-absent message has `body = some ""` (a
string, not `None`) and `sender = none`. -/
theorem C10_witness :
    (extract_email_data (fun s => s) msgEmpty).body = some "" ∧
    (extract_email_data (fun s => s) msgEmpty).sender = none :=
  ⟨(C10_body_always_string (fun s => s) msgEmpty).2.1 (by decide),
   (C10_body_always_string (fun s => s) msgEmpty).2.2.1 (by decide)⟩

end GmailProc
